import Mathlib

/-!
Shallow embedding of the blur (teres) render pipeline core:
`src/helpers.rs` (change_file_name, clean, exec, progress) and
`src/rendering.rs` (Rendering::build_ffmpeg_command, Rendering::render_video).

Paths are modelled as lists of components (no separators inside a
component).  Rust's `Path::file_name` is the last component, `parent`
drops it, `display` joins with "/".  Machine integers are `Nat` with the
u64 parse bound made explicit where `parse::<u64>()` can fail.
-/

namespace Blur

attribute [local semireducible] Rat.mul Rat.inv

/-- A filesystem path, as its list of components (Rust `PathBuf`). -/
abbrev RPath := List String

/-- Rust `Path::display().to_string()`: components joined by the separator. -/
def displayPath (p : RPath) : String := String.intercalate "/" p

/-- Rust `Path::file_name()`: the last component, if any. -/
def fileName (p : RPath) : Option String := p.getLast?

/-- Split a character list at its last dot: `some (before, after)` when a
dot exists.  Used to model Rust's `file_stem` / `extension` rules. -/
def lastDotSplit : List Char → Option (List Char × List Char)
  | [] => none
  | c :: rest =>
    match lastDotSplit rest with
    | some (b, a) => some (c :: b, a)
    | none => if c = '.' then some ([], rest) else none

/-- Rust `Path::extension` on a file name: the portion after the final dot,
provided that dot is not the leading character (hidden-file rule). -/
def extOf (name : String) : Option String :=
  match lastDotSplit name.toList with
  | some (b, a) => if b = [] then none else some (String.mk a)
  | none => none

/-- Rust `Path::file_stem` on a file name: the portion before the final dot,
or the whole name when there is no extension. -/
def stemOf (name : String) : String :=
  match lastDotSplit name.toList with
  | some (b, _) => if b = [] then name else String.mk b
  | none => name

/-- Rust `Path::file_stem()` of a path. -/
def fileStem (p : RPath) : Option String := (p.getLast?).map stemOf

/-- Rust `PathBuf::set_file_name`: replace the last component. -/
def setFileName (p : RPath) (name : String) : RPath := p.dropLast ++ [name]

/-- Rust `PathBuf::set_extension`: replace (or add) the extension of the
file name; no-op when the path has no file name. -/
def setExtension (p : RPath) (ext : String) : RPath :=
  match p.getLast? with
  | none => p
  | some n => p.dropLast ++ [if ext = "" then stemOf n else stemOf n ++ "." ++ ext]

/-- Model of `helpers::change_file_name`: set the file name to `name`, then, if the
original path had an extension, re-apply that extension. -/
def change_file_name (path : RPath) (name : String) : RPath :=
  let result := setFileName path name
  match fileName path with
  | none => result
  | some n =>
    match extOf n with
    | none => result
    | some ext => setExtension result ext

/-- Display form of a time-scale factor (the Rust code formats the factor
with `format!`; scales are modelled exactly as rationals). -/
def fmtQ (q : ℚ) : String :=
  if q.den = 1 then toString q.num else toString q.num ++ "/" ++ toString q.den

/-- The `timescale` section of the settings (fields as used by the builder). -/
structure Timescale where
  input : ℚ
  output : ℚ
  adjust_audio_pitch : Bool
deriving DecidableEq, Repr

/-- The `encoding` section.  `quality` is kept in its `to_string()` form, which
is the only way the builder uses it. -/
structure EncodingCfg where
  quality : String
  container : String
  detailed_filename : Bool
deriving DecidableEq, Repr

/-- The `advanced.encoding` section. -/
structure AdvancedEncoding where
  gpu : Bool
  gpu_type : String
  custom_ffmpeg_filters : Option String
deriving DecidableEq, Repr

/-- The `advanced.interpolation` section. -/
structure AdvancedInterpolation where
  program : String
deriving DecidableEq, Repr

/-- The `advanced` section. -/
structure Advanced where
  encoding : AdvancedEncoding
  interpolation : AdvancedInterpolation
deriving DecidableEq, Repr

/-- The `interpolation` section.  `fps` kept in its display form, which is the
only way the builder uses it. -/
structure Interpolation where
  enabled : Bool
  fps : String
deriving DecidableEq, Repr

/-- The `blending` section.  `output_fps` and `amount` kept in display form. -/
structure Blending where
  enabled : Bool
  output_fps : String
  amount : String
deriving DecidableEq, Repr

/-- The settings snapshot (`Config`), with exactly the fields the modelled
code reads.  The `config` module is not among the given sources; field
shapes are taken from their uses in `rendering.rs`. -/
structure Config where
  timescale : Timescale
  encoding : EncodingCfg
  advanced : Advanced
  interpolation : Interpolation
  blending : Blending
deriving DecidableEq, Repr

/-- Replace the custom-filter override of a settings value. -/
def withCustom (s : Config) (c : Option String) : Config :=
  { s with advanced := { s.advanced with
      encoding := { s.advanced.encoding with custom_ffmpeg_filters := c } } }

/-- The audio filter chain string built by `build_ffmpeg_command`
(lines 209-227 of `rendering.rs`): the two effects are appended in order,
comma-separated when both apply. -/
def audioFilters (s : Config) : String :=
  let af1 := if s.timescale.input ≠ 1 then "asetrate=48000*" ++ fmtQ (1 / s.timescale.input)
             else ""
  if s.timescale.output ≠ 1 then
    (if ¬ (af1 = "") then af1 ++ "," else af1) ++
      (if s.timescale.adjust_audio_pitch then "asetrate=48000*" ++ fmtQ s.timescale.output
       else "atempo=" ++ fmtQ s.timescale.output)
  else af1

/-- The `-af` section of the transcoder arguments: present exactly when the
audio filter chain is non-empty. -/
def afArgs (s : Config) : List String :=
  if audioFilters s = "" then [] else ["-af", audioFilters s]

/-- The fixed leading transcoder arguments (decode options, two inputs,
stream maps). -/
def baseArgs (video : RPath) : List String :=
  ["-loglevel", "error", "-hide_banner", "-nostats",
   "-i", "-", "-i", displayPath video, "-map", "0:v", "-map", "1:a?"]

/-- The encoder flags of the non-custom branch: vendor-specific GPU
encoders, software x264, or rawvideo, then the fixed audio codec and
fast-start flags (lines 239-287 of `rendering.rs`). -/
def encoderArgs (s : Config) (stdoutFlag : Bool) : List String :=
  let quality := s.encoding.quality
  let videoPart :=
    if s.advanced.encoding.gpu then
      if s.advanced.encoding.gpu_type.toLower = "nvidia" then
        ["-c:v", "h264_nvenc", "-preset", "p7", "-qp", quality]
      else if s.advanced.encoding.gpu_type.toLower = "amd" then
        ["-c:v", "h264_amf", "-qp_i", quality, "-qp_b", quality,
         "-qp_p", quality, "-quality", "quality"]
      else if s.advanced.encoding.gpu_type.toLower = "intel" then
        ["-c:v", "h264_qsv", "-global_quality", quality, "-preset", "veryslow"]
      else []
    else if ¬ stdoutFlag then
      ["-c:v", "libx264", "-preset", "superfast", "-crf", quality]
    else
      ["-c:v", "rawvideo"]
  videoPart ++ ["-c:a", "aac", "-b:a", "320k"] ++ ["-movflags", "+faststart"]

/-- The encoder section as emitted: skipped entirely when a custom filter
override is present (`if custom_ffmpeg.is_some() {} else { ... }`). -/
def encoderSection (s : Config) (stdoutFlag : Bool) : List String :=
  match s.advanced.encoding.custom_ffmpeg_filters with
  | some _ => []
  | none => encoderArgs s stdoutFlag

/-- The rewritten base name of the detailed-filename branch
(`{stem}-{fps}fps-{program}~{output_fps}fps-{amount}`). -/
def detailedFileName (s : Config) (stem : String) : String :=
  stem ++ "-" ++ s.interpolation.fps ++ "fps-" ++ s.advanced.interpolation.program ++
    "~" ++ s.blending.output_fps ++ "fps-" ++ s.blending.amount

/-- The guard of the detailed-filename branch. -/
def dcond (s : Config) : Bool :=
  s.encoding.detailed_filename && s.interpolation.enabled && s.blending.enabled

/-- Error sources of the out-of-scope environment calls. -/
inductive IOErrKind where
  | installerDetect
  | currentExeUnavailable
deriving DecidableEq, Repr

/-- How `build_ffmpeg_command` can fail: a propagated I/O error (from the
`?` operators) or an unwrap-style process abort. -/
inductive BuildErr where
  | io (k : IOErrKind)
  | panicked (msg : String)
deriving DecidableEq, Repr

/-- Modelled from the spec: `teres::used_installer` and
`std::env::current_exe` are outside the given sources (installer-path
detection, declared an external collaborator); per the spec each may fail
with an error that the builder propagates. -/
structure BuildEnv where
  used_installer : Except IOErrKind Bool
  current_exe : Except IOErrKind RPath

/-- The builder's output `CommandWithArgs` (`rendering.rs` lines 69-77). -/
structure CommandWithArgs where
  ffmpeg_exe : String
  ffmpeg_args : List String
  vspipe_exe : String
  vspipe_args : List String
  output_filename : String
deriving DecidableEq, Repr

/-- Executable resolution of `build_ffmpeg_command` (`rendering.rs` lines
170-182): default bare names, replaced by bundled paths beside the running
binary when the installer marker is present. -/
def resolveExes (env : BuildEnv) : Except BuildErr (String × String) :=
  match env.used_installer with
  | .error k => .error (.io k)
  | .ok ui =>
    if ui then
      match env.current_exe with
      | .error k => .error (.io k)
      | .ok exepath =>
        match exepath with
        | [] => .error (.panicked "unwrap None (exe parent)")
        | _ :: _ =>
          let pathStr := displayPath exepath.dropLast
          .ok (pathStr ++ "/lib/vapoursynth/VSPipe.exe",
               pathStr ++ "/lib/ffmpeg/ffmpeg.exe")
    else .ok ("vspipe", "ffmpeg")

/-- Model of `Rendering::build_ffmpeg_command` (`rendering.rs` lines 163-327). -/
def build_ffmpeg_command (env : BuildEnv) (script_path video_path output_path : RPath)
    (settings : Config) (stdoutFlag : Bool) : Except BuildErr CommandWithArgs :=
  match resolveExes env with
  | .error e => .error e
  | .ok (vspipeExe, ffmpegExe) =>
      let pipeArgs := [displayPath script_path, "-", "-p", "-c", "y4m"]
      let preArgs := baseArgs video_path ++ afArgs settings ++
        encoderSection settings stdoutFlag
      if dcond settings then
        match fileStem output_path with
        | none => .error (.panicked "file_stem unwrap")
        | some stem =>
          let outfile :=
            displayPath (change_file_name output_path (detailedFileName settings stem))
          .ok { ffmpeg_exe := ffmpegExe, ffmpeg_args := preArgs ++ [outfile],
                vspipe_exe := vspipeExe, vspipe_args := pipeArgs,
                output_filename := outfile }
      else if stdoutFlag then
        .ok { ffmpeg_exe := ffmpegExe,
              ffmpeg_args := preArgs ++ ["-f", "nut"] ++ ["-"],
              vspipe_exe := vspipeExe, vspipe_args := pipeArgs,
              output_filename := "-" }
      else
        let outfile := displayPath output_path
        .ok { ffmpeg_exe := ffmpegExe, ffmpeg_args := preArgs ++ [outfile],
              vspipe_exe := vspipeExe, vspipe_args := pipeArgs,
              output_filename := outfile }

/-! ## Progress Extractor (`helpers::progress`, lines 88-109) -/

/-- Split the byte stream into carriage-return-delimited records, each
record including its trailing delimiter (Rust `read_until(b'\r')`), the
final record possibly unterminated. -/
def splitCRAux : List Char → List Char → List (List Char)
  | [], acc => if acc = [] then [] else [acc.reverse]
  | c :: rest, acc =>
    if c = '\r' then (acc.reverse ++ ['\r']) :: splitCRAux rest []
    else splitCRAux rest (c :: acc)

/-- The record sequence the scan loop sees for a whole stream. -/
def splitCR (s : List Char) : List (List Char) := splitCRAux s []

/-- Strip an expected literal from the front of a character list. -/
def stripPre : List Char → List Char → Option (List Char)
  | [], s => some s
  | _ :: _, [] => none
  | p :: ps, c :: cs => if p = c then stripPre ps cs else none

/-- The code point ranges of the Unicode general category Nd (decimal
number, Unicode 15.0), which is what the Rust regex crate's `\d` matches
by default. -/
def ndRanges : List (ℕ × ℕ) :=
  [(0x30, 0x39), (0x660, 0x669), (0x6F0, 0x6F9), (0x7C0, 0x7C9),
   (0x966, 0x96F), (0x9E6, 0x9EF), (0xA66, 0xA6F), (0xAE6, 0xAEF),
   (0xB66, 0xB6F), (0xBE6, 0xBEF), (0xC66, 0xC6F), (0xCE6, 0xCEF),
   (0xD66, 0xD6F), (0xDE6, 0xDEF), (0xE50, 0xE59), (0xED0, 0xED9),
   (0xF20, 0xF29), (0x1040, 0x1049), (0x1090, 0x1099), (0x17E0, 0x17E9),
   (0x1810, 0x1819), (0x1946, 0x194F), (0x19D0, 0x19D9), (0x1A80, 0x1A89),
   (0x1A90, 0x1A99), (0x1B50, 0x1B59), (0x1BB0, 0x1BB9), (0x1C40, 0x1C49),
   (0x1C50, 0x1C59), (0xA620, 0xA629), (0xA8D0, 0xA8D9), (0xA900, 0xA909),
   (0xA9D0, 0xA9D9), (0xA9F0, 0xA9F9), (0xAA50, 0xAA59), (0xABF0, 0xABF9),
   (0xFF10, 0xFF19), (0x104A0, 0x104A9), (0x10D30, 0x10D39),
   (0x11066, 0x1106F), (0x110F0, 0x110F9), (0x11136, 0x1113F),
   (0x111D0, 0x111D9), (0x112F0, 0x112F9), (0x11450, 0x11459),
   (0x114D0, 0x114D9), (0x11650, 0x11659), (0x116C0, 0x116C9),
   (0x11730, 0x11739), (0x118E0, 0x118E9), (0x11950, 0x11959),
   (0x11C50, 0x11C59), (0x11D50, 0x11D59), (0x11DA0, 0x11DA9),
   (0x11F50, 0x11F59), (0x16A60, 0x16A69), (0x16AC0, 0x16AC9),
   (0x16B50, 0x16B59), (0x1D7CE, 0x1D7FF), (0x1E140, 0x1E149),
   (0x1E2F0, 0x1E2F9), (0x1E4F0, 0x1E4F9), (0x1E950, 0x1E959),
   (0x1FBF0, 0x1FBF9)]

/-- Membership in the Unicode decimal digit class `\p{Nd}` — the character
class the regex `\d` matches (Unicode mode is the regex crate default). -/
def isNd (c : Char) : Bool :=
  ndRanges.any (fun r => decide (r.1 ≤ c.toNat) && decide (c.toNat ≤ r.2))

/-- Take the maximal leading run of `\d` (Unicode Nd) characters. -/
def takeNd : List Char → List Char × List Char
  | [] => ([], [])
  | c :: rest =>
    if isNd c then
      let (ds, r) := takeNd rest
      (c :: ds, r)
    else ([], c :: rest)

/-- Exclusive upper bound of `u64` (`parse::<u64>()` fails at or above it,
and the surrounding `unwrap` then aborts the process). -/
def u64Bound : ℕ := 18446744073709551616

/-- Decimal value of an ASCII digit run. -/
def digitsToNat (ds : List Char) : ℕ :=
  ds.foldl (fun acc c => acc * 10 + (c.toNat - 48)) 0

/-- Rust `str::parse::<u64>` on a captured digit run: succeeds exactly on
non-empty all-ASCII-digit strings whose value fits in u64; a Unicode digit
that `\d` matched, or an overflowing value, is a parse error (and the
surrounding `unwrap` then aborts). -/
def parseU64 (ds : List Char) : Option ℕ :=
  if ds ≠ [] ∧ ds.all (fun c => c.isDigit) then
    (if digitsToNat ds < u64Bound then some (digitsToNat ds) else none)
  else none

/-- Match the regex `Frame: (?P<current>\d+)/(?P<total>\d+)` anchored at the
start of `s`, with greedy digit captures returned as character runs (the
capture text, exactly what the code later feeds to `parse::<u64>`). -/
def matchFrameAt (s : List Char) : Option (List Char × List Char) :=
  match stripPre "Frame: ".toList s with
  | none => none
  | some r1 =>
    match takeNd r1 with
    | ([], _) => none
    | (d1, r2) =>
      match r2 with
      | '/' :: r3 =>
        match takeNd r3 with
        | ([], _) => none
        | (d2, _) => some (d1, d2)
      | _ => none

/-- Leftmost match of the frame regex inside a record. -/
def matchFrame : List Char → Option (List Char × List Char)
  | [] => none
  | c :: rest =>
    match matchFrameAt (c :: rest) with
    | some v => some v
    | none => matchFrame rest

/-- The (current, total) capture texts of the matching records, in order. -/
def matchedOf (recs : List (List Char)) : List (List Char × List Char) :=
  recs.filterMap matchFrame

/-- Observable updates to the progress indicator. -/
inductive PbEvent where
  | setLength (n : ℕ)
  | setPosition (n : ℕ)
deriving DecidableEq, Repr

/-- The record-processing loop of `helpers::progress`, with `read_frames`
as explicit state; returns the progress-indicator updates, or the message
of the abort raised by an unparseable capture (a `\d`-matched run that is
not an in-range ASCII u64: a Unicode digit or an overflow).  On the first
matching record the total is parsed before the current position, as in the
code. -/
def progressRun : List (List Char) → Bool → Except String (List PbEvent)
  | [], _ => .ok []
  | r :: rest, readFrames =>
    match matchFrame r with
    | none => progressRun rest readFrames
    | some (curS, totS) =>
      if readFrames then
        match parseU64 curS with
        | none => .error "u64 parse unwrap"
        | some cur =>
          match progressRun rest true with
          | .ok evs => .ok (.setPosition cur :: evs)
          | .error e => .error e
      else
        match parseU64 totS with
        | none => .error "u64 parse unwrap"
        | some total =>
          match parseU64 curS with
          | none => .error "u64 parse unwrap"
          | some cur =>
            match progressRun rest true with
            | .ok evs => .ok (.setLength total :: .setPosition cur :: evs)
            | .error e => .error e

/-- Model of `helpers::progress` over a whole diagnostic stream. -/
def progress (input : List Char) : Except String (List PbEvent) :=
  progressRun (splitCR input) false

/-! ## Pipeline Executor (`helpers::exec`, lines 51-70) -/

/-- Which standard streams of a spawned child were configured as pipes
(a Rust `Child` exposes a handle exactly for the piped ones). -/
structure ChildHandles where
  stdoutHandle : Bool
  stderrHandle : Bool
deriving DecidableEq, Repr

/-- The vspipe spawn configuration in `exec`: `.stdout(Stdio::piped())` and
nothing else, so only the stdout handle is present. -/
def vspipeSpawnHandles : ChildHandles := { stdoutHandle := true, stderrHandle := false }

/-- Model of `helpers::exec`: spawn the two processes, drain the source process's
stderr through the Progress Extractor when the caller's stderr is not a
terminal, wait for both, and return the transcoder's exit status together
with the observed progress updates; `.error` is a process abort. -/
def exec (stderrIsTerminal : Bool) (vspipeStatus ffmpegStatus : Int)
    (vspipeStderrData : List Char) : Except String (Int × List PbEvent) :=
  if vspipeSpawnHandles.stdoutHandle = false then
    .error "Failed to open vspipe stdout"
  else if ¬ stderrIsTerminal then
    if vspipeSpawnHandles.stderrHandle then
      match progress vspipeStderrData with
      | .error e => .error e
      | .ok evs => .ok (ffmpegStatus, evs)
    else .error "stderr take unwrap on None"
  else .ok (ffmpegStatus, [])

/-- The value `exitcode::SOFTWARE`, the code passed to `helpers::exit` on a failed
render. -/
def exitcodeSOFTWARE : Int := 70

/-- Outcome of one `render_video` call. -/
inductive RenderOutcome where
  | buildFailed (e : BuildErr)
  | aborted (msg : String)
  | exitRun (code : Int)
  | finished (filename : String)
deriving DecidableEq, Repr

/-- Model of `Rendering::render_video` (lines 120-161): build the commands, run the
pipeline, and on a non-zero transcoder status terminate the whole run via
`helpers::exit(exitcode::SOFTWARE)`; otherwise report the resolved output
file name.  (The subsequent `clean` call is modelled separately, on the
filesystem state.) -/
def render_video (env : BuildEnv) (stderrIsTerminal : Bool)
    (output_filepath : RPath) (settings : Config) (video_path script_path : RPath)
    (stdoutFlag : Bool) (vspipeStatus ffmpegStatus : Int)
    (stderrData : List Char) : RenderOutcome :=
  match build_ffmpeg_command env script_path video_path output_filepath settings stdoutFlag with
  | .error e => .buildFailed e
  | .ok cmd =>
    match exec stderrIsTerminal vspipeStatus ffmpegStatus stderrData with
    | .error msg => .aborted msg
    | .ok (st, _) =>
      if st ≠ 0 then .exitRun exitcodeSOFTWARE
      else .finished cmd.output_filename

/-! ## Temp Artifact Tracker (`helpers::clean`, lines 21-43) -/

/-- A filesystem snapshot: the existing entries, plus the entries whose
deletion fails with a non-NotFound error (e.g. permissions). -/
structure FS where
  entries : List RPath
  locked : List RPath
deriving DecidableEq, Repr

/-- Filesystem deletion errors distinguished by `clean`. -/
inductive FsErr where
  | notFound
  | permission
deriving DecidableEq, Repr

/-- Model of `std::fs::remove_file`: NotFound when absent, a non-NotFound error when
locked, otherwise remove the entry. -/
def removeFileFS (fs : FS) (p : RPath) : Except FsErr FS :=
  if p ∈ fs.locked then .error .permission
  else if p ∈ fs.entries then
    .ok { fs with entries := fs.entries.filter (fun e => decide (e ≠ p)) }
  else .error .notFound

/-- Model of `std::fs::remove_dir_all`: remove the directory and everything
below it, failing (like the real call, whose error the code unwraps) when
some entry below it cannot be deleted. -/
def removeDirAllFS (fs : FS) (d : RPath) : Except FsErr FS :=
  if fs.entries.any (fun e => d.isPrefixOf e && decide (e ∈ fs.locked)) then
    .error .permission
  else
    .ok { fs with entries := fs.entries.filter (fun e => ¬ (d.isPrefixOf e)) }

/-- Number of direct entries of directory `d`, what `read_dir(...).count()`
sees: the distinct next path components of the entries lying below `d`,
which covers both plain files and subdirectories implied by deeper
entries. -/
def dirCount (fs : FS) (d : RPath) : ℕ :=
  ((fs.entries.filterMap (fun e =>
      if d.isPrefixOf e then (e.drop d.length).head? else none)).dedup).length

/-- Whether `read_dir(d)` succeeds: the root always exists, other
directories when they are listed or have some entry below them. -/
def dirExists (fs : FS) (d : RPath) : Bool :=
  d.isEmpty || fs.entries.any (fun e => d.isPrefixOf e)

/-- Model of `helpers::clean`: remove the whole temp directory when it holds at most
one entry, otherwise only the script file; then try to delete the
`<video file name>.ffindex` sidecar, tolerating only its absence.
`.error` is a process abort (a failed `unwrap` or the explicit abort on an
unexpected deletion failure). -/
def clean (fs : FS) (video script_path : RPath) : Except String FS :=
  match script_path with
  | [] => .error "script parent unwrap on None"
  | _ :: _ =>
    let parent := script_path.dropLast
    if ¬ dirExists fs parent then .error "read_dir unwrap"
    else
      let step1 : Except String FS :=
        if dirCount fs parent ≤ 1 then
          match removeDirAllFS fs parent with
          | .ok fs2 => .ok fs2
          | .error _ => .error "remove_dir_all unwrap"
        else
          match removeFileFS fs script_path with
          | .ok fs2 => .ok fs2
          | .error _ => .error "remove_file unwrap"
      match step1 with
      | .error e => .error e
      | .ok fs1 =>
        match video with
        | [] => .error "video parent unwrap on None"
        | _ :: _ =>
          let ffpath := video.dropLast ++ [((video.getLast?).getD "") ++ ".ffindex"]
          match removeFileFS fs1 ffpath with
          | .ok fs2 => .ok fs2
          | .error .notFound => .ok fs1
          | .error .permission => .error "Problem deleting the file"

/-! ## Auxiliary values and predicates used by the verification -/

/-- An environment in which no installer is detected. -/
def envPlain : BuildEnv := { used_installer := .ok false, current_exe := .ok [] }

/-- An environment in which installer detection itself fails. -/
def envBadInstaller : BuildEnv :=
  { used_installer := .error .installerDetect, current_exe := .ok [] }

/-- The environment conditions under which the builder's executable
resolution cannot fail: installer detection succeeds, and when bundled
executables are in use the running binary's path is determinable and has a
parent. -/
def envReady (env : BuildEnv) : Prop :=
  env.used_installer = Except.ok false ∨
    (env.used_installer = Except.ok true ∧
      ∃ p, env.current_exe = Except.ok p ∧ p ≠ [])

/-- Which of the three output-target forms the builder's final branch
produces: 0 = detailed-filename rewrite, 1 = stdout-streaming form,
2 = plain resolved output path. -/
def outputBranch (s : Config) (flag : Bool) : Fin 3 :=
  if dcond s then 0 else if flag then 1 else 2

/-- Every string the encoder section can emit other than the quality
value. -/
def encFixedStrings : List String :=
  ["-c:v", "h264_nvenc", "-preset", "p7", "-qp", "h264_amf", "-qp_i", "-qp_b",
   "-qp_p", "-quality", "quality", "h264_qsv", "-global_quality", "veryslow",
   "libx264", "superfast", "-crf", "rawvideo", "-c:a", "aac", "-b:a", "320k",
   "-movflags", "+faststart"]

/-- The audio-codec and fast-start flags of the non-custom branch. -/
def aacSection : List String :=
  ["-c:a", "aac", "-b:a", "320k", "-movflags", "+faststart"]

/-- A neutral settings value (unit time scales, software encoding, no
custom filters, interpolation and blending disabled). -/
def cfgBase : Config :=
  { timescale := { input := 1, output := 1, adjust_audio_pitch := false },
    encoding := { quality := "20", container := "mp4", detailed_filename := false },
    advanced := { encoding := { gpu := false, gpu_type := "nvidia",
                                custom_ffmpeg_filters := none },
                  interpolation := { program := "svp" } },
    interpolation := { enabled := false, fps := "5" },
    blending := { enabled := false, output_fps := "60", amount := "06" } }

/-- Settings with the detailed-filename rewrite active and a blending
amount whose display form contains a dot. -/
def cfg8 : Config :=
  { cfgBase with
    encoding := { quality := "20", container := "mp4", detailed_filename := true },
    interpolation := { enabled := true, fps := "5" },
    blending := { enabled := true, output_fps := "60", amount := "0.6" } }

/-- Settings with the detailed-filename rewrite active and dot-free
parameter display forms. -/
def cfg8ok : Config :=
  { cfg8 with blending := { enabled := true, output_fps := "60", amount := "06" } }

/-- Settings with both time scales active (input 1/2, output 2, no pitch
adjustment). -/
def cfg5 : Config :=
  { cfgBase with timescale := { input := 1/2, output := 2, adjust_audio_pitch := false } }

/-- Settings with a custom-filter override and GPU encoding nominally
requested (the override suppresses it). -/
def cfg9 : Config :=
  { cfgBase with
    advanced := { encoding := { gpu := true, gpu_type := "NVIDIA",
                                custom_ffmpeg_filters := some "myfilters" },
                  interpolation := { program := "svp" } } }

/-- The command `build_ffmpeg_command` produces for `cfg9` on plain paths:
no encoder flags at all. -/
def cmd9 : CommandWithArgs :=
  { ffmpeg_exe := "ffmpeg",
    ffmpeg_args := ["-loglevel", "error", "-hide_banner", "-nostats", "-i", "-",
      "-i", "v.mp4", "-map", "0:v", "-map", "1:a?", "out.mp4"],
    vspipe_exe := "vspipe",
    vspipe_args := ["t/s.vpy", "-", "-p", "-c", "y4m"],
    output_filename := "out.mp4" }

/-- The command `build_ffmpeg_command` produces for `cfg5` on plain paths. -/
def cmd5 : CommandWithArgs :=
  { ffmpeg_exe := "ffmpeg",
    ffmpeg_args := ["-loglevel", "error", "-hide_banner", "-nostats", "-i", "-",
      "-i", "v.mp4", "-map", "0:v", "-map", "1:a?", "-af", "asetrate=48000*2,atempo=2",
      "-c:v", "libx264", "-preset", "superfast", "-crf", "20", "-c:a", "aac",
      "-b:a", "320k", "-movflags", "+faststart", "out.mp4"],
    vspipe_exe := "vspipe",
    vspipe_args := ["t/s.vpy", "-", "-p", "-c", "y4m"],
    output_filename := "out.mp4" }

/-! ## Helper lemmas -/

theorem splitCRAux_flatten (s : List Char) :
    ∀ acc, (splitCRAux s acc).flatten = acc.reverse ++ s := by
  induction s with
  | nil =>
    intro acc
    by_cases h : acc = [] <;> simp [splitCRAux, h]
  | cons c rest ih =>
    intro acc
    by_cases h : c = '\r'
    · simp [splitCRAux, h, ih]
    · simpa [splitCRAux, h] using ih (c :: acc)

theorem splitCR_flatten (s : List Char) : (splitCR s).flatten = s := by
  simpa using splitCRAux_flatten s []

theorem matchedOf_cons_none {r : List Char} {rest : List (List Char)}
    (h : matchFrame r = none) : matchedOf (r :: rest) = matchedOf rest := by
  simp [matchedOf, List.filterMap_cons, h]

theorem matchedOf_cons_some {r : List Char} {rest : List (List Char)}
    {p : List Char × List Char}
    (h : matchFrame r = some p) : matchedOf (r :: rest) = p :: matchedOf rest := by
  simp [matchedOf, List.filterMap_cons, h]

theorem progressRun_true (recs : List (List Char))
    (hb : ∀ p ∈ matchedOf recs, (parseU64 p.1).isSome = true) :
    progressRun recs true =
      .ok ((matchedOf recs).map fun p => PbEvent.setPosition ((parseU64 p.1).getD 0)) := by
  induction recs with
  | nil => simp [progressRun, matchedOf]
  | cons r rest ih =>
    cases h : matchFrame r with
    | none =>
      rw [matchedOf_cons_none h] at hb ⊢
      simpa [progressRun, h] using ih hb
    | some p =>
      obtain ⟨c, t⟩ := p
      rw [matchedOf_cons_some h] at hb ⊢
      obtain ⟨v, hv⟩ := Option.isSome_iff_exists.mp (hb (c, t) (by simp))
      simp [progressRun, h, hv, ih fun q hq => hb q (by simp [hq])]

theorem progressRun_false (recs : List (List Char))
    (hb : ∀ p ∈ matchedOf recs, (parseU64 p.1).isSome = true ∧
      (parseU64 p.2).isSome = true) :
    progressRun recs false =
      .ok (match matchedOf recs with
        | [] => []
        | (c, t) :: rest =>
          PbEvent.setLength ((parseU64 t).getD 0) ::
            PbEvent.setPosition ((parseU64 c).getD 0) ::
            rest.map fun p => PbEvent.setPosition ((parseU64 p.1).getD 0)) := by
  induction recs with
  | nil => simp [progressRun, matchedOf]
  | cons r rest ih =>
    cases h : matchFrame r with
    | none =>
      rw [matchedOf_cons_none h] at hb ⊢
      simpa [progressRun, h] using ih hb
    | some p =>
      obtain ⟨c, t⟩ := p
      rw [matchedOf_cons_some h] at hb ⊢
      obtain ⟨vc, hvc⟩ := Option.isSome_iff_exists.mp (hb (c, t) (by simp)).1
      obtain ⟨vt, hvt⟩ := Option.isSome_iff_exists.mp (hb (c, t) (by simp)).2
      have hrest := progressRun_true rest fun q hq => (hb q (by simp [hq])).1
      simp [progressRun, h, hvc, hvt, hrest]

theorem lastDotSplit_eq_none {cs : List Char} (h : '.' ∉ cs) :
    lastDotSplit cs = none := by
  induction cs with
  | nil => rfl
  | cons c rest ih =>
    have hc : ¬ c = '.' := fun hcc => h (by simp [hcc])
    have hr : '.' ∉ rest := fun hm => h (by simp [hm])
    simp [lastDotSplit, ih hr, hc]

theorem stemOf_no_dot {name : String} (h : '.' ∉ name.toList) :
    stemOf name = name := by
  have h2 := lastDotSplit_eq_none h
  simp only [String.toList] at h2
  simp [stemOf, h2]

theorem audioFilters_none {s : Config} (hi : s.timescale.input = 1)
    (ho : s.timescale.output = 1) : audioFilters s = "" := by
  simp [audioFilters, hi, ho]

theorem audioFilters_inOnly {s : Config} (hi : s.timescale.input ≠ 1)
    (ho : s.timescale.output = 1) :
    audioFilters s = "asetrate=48000*" ++ fmtQ (1 / s.timescale.input) := by
  simp [audioFilters, hi, ho]

theorem audioFilters_outOnly {s : Config} (hi : s.timescale.input = 1)
    (ho : s.timescale.output ≠ 1) :
    audioFilters s =
      (if s.timescale.adjust_audio_pitch then "asetrate=48000*" ++ fmtQ s.timescale.output
       else "atempo=" ++ fmtQ s.timescale.output) := by
  by_cases hp : s.timescale.adjust_audio_pitch <;> simp [audioFilters, hi, ho, hp]

theorem audioFilters_both {s : Config} (hi : s.timescale.input ≠ 1)
    (ho : s.timescale.output ≠ 1) :
    audioFilters s = "asetrate=48000*" ++ fmtQ (1 / s.timescale.input) ++ "," ++
      (if s.timescale.adjust_audio_pitch then "asetrate=48000*" ++ fmtQ s.timescale.output
       else "atempo=" ++ fmtQ s.timescale.output) := by
  have h1 : ¬ ("asetrate=48000*" ++ fmtQ (1 / s.timescale.input) = "") := by
    intro hemp
    have hd : ("asetrate=48000*" : String).data ++ (fmtQ (1 / s.timescale.input)).data = [] := by
      simpa [String.data_append] using congrArg String.data hemp
    have h0 := (List.append_eq_nil.mp hd).1
    simp at h0
  simp only [audioFilters, if_pos hi, if_pos ho, if_pos h1]

theorem exists_data_cons_of_left {a : String} {c1 c2 : Char}
    (h : ∃ t, a.data = c1 :: c2 :: t) (b : String) :
    ∃ t, (a ++ b).data = c1 :: c2 :: t := by
  obtain ⟨t, ht⟩ := h
  exact ⟨t ++ b.data, by rw [String.data_append, ht]; simp⟩

/-- A non-empty audio filter chain starts with "as" or "at" (so it is never
one of the fixed flag strings). -/
theorem audioFilters_head {s : Config} (h : audioFilters s ≠ "") :
    (∃ t, (audioFilters s).data = 'a' :: 's' :: t) ∨
      (∃ t, (audioFilters s).data = 'a' :: 't' :: t) := by
  have hA : ∃ t, ("asetrate=48000*" : String).data = 'a' :: 's' :: t :=
    ⟨"etrate=48000*".data, rfl⟩
  have hT : ∃ t, ("atempo=" : String).data = 'a' :: 't' :: t :=
    ⟨"empo=".data, rfl⟩
  by_cases hi : s.timescale.input = 1 <;> by_cases ho : s.timescale.output = 1
  · exact absurd (audioFilters_none hi ho) h
  · rw [audioFilters_outOnly hi ho]
    by_cases hp : s.timescale.adjust_audio_pitch
    · rw [if_pos hp]
      exact Or.inl (exists_data_cons_of_left hA _)
    · rw [if_neg hp]
      exact Or.inr (exists_data_cons_of_left hT _)
  · rw [audioFilters_inOnly hi ho]
    exact Or.inl (exists_data_cons_of_left hA _)
  · rw [audioFilters_both hi ho]
    exact Or.inl (exists_data_cons_of_left
      (exists_data_cons_of_left (exists_data_cons_of_left hA _) _) _)

theorem mem_encoderArgs {x : String} {s : Config} {flag : Bool}
    (h : x ∈ encoderArgs s flag) : x = s.encoding.quality ∨ x ∈ encFixedStrings := by
  simp only [encoderArgs] at h
  by_cases hg : s.advanced.encoding.gpu = true
  · rw [if_pos hg] at h
    by_cases h1 : s.advanced.encoding.gpu_type.toLower = "nvidia"
    · rw [if_pos h1] at h
      simp only [List.mem_append, List.mem_cons, List.not_mem_nil, or_false] at h
      rcases h with ((rfl|rfl|rfl|rfl|rfl|rfl)|(rfl|rfl|rfl|rfl))|(rfl|rfl) <;>
        first
          | exact Or.inl rfl
          | exact Or.inr (by decide)
    · rw [if_neg h1] at h
      by_cases h2 : s.advanced.encoding.gpu_type.toLower = "amd"
      · rw [if_pos h2] at h
        simp only [List.mem_append, List.mem_cons, List.not_mem_nil, or_false] at h
        rcases h with ((rfl|rfl|rfl|rfl|rfl|rfl|rfl|rfl|rfl|rfl)|(rfl|rfl|rfl|rfl))|(rfl|rfl) <;>
          first
            | exact Or.inl rfl
            | exact Or.inr (by decide)
      · rw [if_neg h2] at h
        by_cases h3 : s.advanced.encoding.gpu_type.toLower = "intel"
        · rw [if_pos h3] at h
          simp only [List.mem_append, List.mem_cons, List.not_mem_nil, or_false] at h
          rcases h with ((rfl|rfl|rfl|rfl|rfl|rfl)|(rfl|rfl|rfl|rfl))|(rfl|rfl) <;>
            first
              | exact Or.inl rfl
              | exact Or.inr (by decide)
        · rw [if_neg h3] at h
          simp only [List.nil_append, List.mem_append, List.mem_cons,
            List.not_mem_nil, or_false] at h
          rcases h with (rfl|rfl|rfl|rfl)|(rfl|rfl) <;>
            first
              | exact Or.inl rfl
              | exact Or.inr (by decide)
  · rw [if_neg hg] at h
    cases flag with
    | true =>
      rw [if_neg (by simp)] at h
      simp only [List.mem_append, List.mem_cons, List.not_mem_nil, or_false] at h
      rcases h with ((rfl|rfl)|(rfl|rfl|rfl|rfl))|(rfl|rfl) <;>
        first
          | exact Or.inl rfl
          | exact Or.inr (by decide)
    | false =>
      rw [if_pos (by simp)] at h
      simp only [List.mem_append, List.mem_cons, List.not_mem_nil, or_false] at h
      rcases h with ((rfl|rfl|rfl|rfl|rfl|rfl)|(rfl|rfl|rfl|rfl))|(rfl|rfl) <;>
        first
          | exact Or.inl rfl
          | exact Or.inr (by decide)

/-- Any successful build decomposes as the fixed decode options, the audio
filter section, the encoder section, and the output target. -/
theorem build_ok_decomp {env : BuildEnv} {script video output : RPath} {s : Config}
    {flag : Bool} {cmd : CommandWithArgs}
    (hb : build_ffmpeg_command env script video output s flag = .ok cmd) :
    cmd.vspipe_args = [displayPath script, "-", "-p", "-c", "y4m"] ∧
    ∃ tail, cmd.ffmpeg_args = baseArgs video ++ afArgs s ++ encoderSection s flag ++ tail ∧
      ((tail = ["-f", "nut", "-"] ∧ cmd.output_filename = "-") ∨
        tail = [cmd.output_filename]) := by
  unfold build_ffmpeg_command at hb
  cases hre : resolveExes env with
  | error e => rw [hre] at hb; exact Except.noConfusion hb
  | ok exes =>
    obtain ⟨vspipeExe, ffmpegExe⟩ := exes
    rw [hre] at hb
    dsimp only at hb
    by_cases hd : dcond s = true
    · rw [if_pos hd] at hb
      cases hfs : fileStem output with
      | none => rw [hfs] at hb; exact Except.noConfusion hb
      | some stem =>
        rw [hfs] at hb
        cases hb
        exact ⟨rfl, _, by simp [List.append_assoc], Or.inr rfl⟩
    · rw [if_neg hd] at hb
      cases flag with
      | true =>
        rw [if_pos rfl] at hb
        cases hb
        exact ⟨rfl, ["-f", "nut", "-"], by simp [List.append_assoc], Or.inl ⟨rfl, rfl⟩⟩
      | false =>
        rw [if_neg (by simp)] at hb
        cases hb
        exact ⟨rfl, _, by simp [List.append_assoc], Or.inr rfl⟩

theorem resolveExes_ok_of_ready {env : BuildEnv} (h : envReady env) :
    ∃ p, resolveExes env = .ok p := by
  rcases h with h0 | ⟨h1, p, hp, hne⟩
  · exact ⟨("vspipe", "ffmpeg"), by simp [resolveExes, h0]⟩
  · cases p with
    | nil => exact absurd rfl hne
    | cons a t =>
      exact ⟨(displayPath (a :: t).dropLast ++ "/lib/vapoursynth/VSPipe.exe",
              displayPath (a :: t).dropLast ++ "/lib/ffmpeg/ffmpeg.exe"),
             by simp [resolveExes, h1, hp]⟩

theorem resolveExes_error_cases {env : BuildEnv} {e : BuildErr}
    (h : resolveExes env = .error e) :
    (∃ k, e = .io k ∧ (env.used_installer = .error k ∨ env.current_exe = .error k)) ∨
    (e = .panicked "unwrap None (exe parent)" ∧ env.current_exe = .ok []) := by
  unfold resolveExes at h
  cases hui : env.used_installer with
  | error k =>
    rw [hui] at h
    dsimp only at h
    injection h with h2
    exact Or.inl ⟨k, h2.symm, Or.inl rfl⟩
  | ok ui =>
    rw [hui] at h
    dsimp only at h
    cases ui with
    | false => exact Except.noConfusion h
    | true =>
      rw [if_pos rfl] at h
      cases hce : env.current_exe with
      | error k =>
        rw [hce] at h
        injection h with h2
        exact Or.inl ⟨k, h2.symm, Or.inr rfl⟩
      | ok p =>
        rw [hce] at h
        cases p with
        | nil =>
          injection h with h2
          exact Or.inr ⟨h2.symm, rfl⟩
        | cons a t => exact Except.noConfusion h

theorem build_error_cases {env : BuildEnv} {script video output : RPath} {s : Config}
    {flag : Bool} {e : BuildErr}
    (hb : build_ffmpeg_command env script video output s flag = .error e) :
    resolveExes env = .error e ∨
      (e = .panicked "file_stem unwrap" ∧ dcond s = true ∧ fileStem output = none) := by
  unfold build_ffmpeg_command at hb
  cases hre : resolveExes env with
  | error e2 =>
    rw [hre] at hb
    dsimp only at hb
    injection hb with h2
    rw [← h2]
    exact Or.inl rfl
  | ok p =>
    obtain ⟨ve, fe⟩ := p
    rw [hre] at hb
    dsimp only at hb
    by_cases hd : dcond s = true
    · rw [if_pos hd] at hb
      cases hfs : fileStem output with
      | none =>
        rw [hfs] at hb
        injection hb with h2
        exact Or.inr ⟨h2.symm, hd, rfl⟩
      | some stem => rw [hfs] at hb; exact Except.noConfusion hb
    · rw [if_neg hd] at hb
      cases flag with
      | true => rw [if_pos rfl] at hb; exact Except.noConfusion hb
      | false => rw [if_neg (by simp)] at hb; exact Except.noConfusion hb

/-- The sidecar-deletion step of `clean` simply drops the sidecar entry
whenever its deletion does not fail for a reason other than absence. -/
theorem ffindexStep_eq (fs1 : FS) (p : RPath) (hl : p ∉ fs1.locked) :
    (match removeFileFS fs1 p with
      | .ok fs2 => (.ok fs2 : Except String FS)
      | .error .notFound => .ok fs1
      | .error .permission => .error "Problem deleting the file") =
      .ok { fs1 with entries := fs1.entries.filter (fun e => decide (e ≠ p)) } := by
  unfold removeFileFS
  rw [if_neg hl]
  by_cases hp : p ∈ fs1.entries
  · rw [if_pos hp]
  · rw [if_neg hp]
    have hf : fs1.entries.filter (fun e => decide (e ≠ p)) = fs1.entries := by
      apply List.filter_eq_self.mpr
      intro e he
      simp only [decide_eq_true_eq]
      intro hep
      exact hp (hep ▸ he)
    rw [hf]

/-! ## Claim theorems -/

/-- Claim C1 (code bug): the spec requires the non-interactive branch of the
Pipeline Executor to drain the source process's diagnostic stream through
the Progress Extractor without failing, the absent-handle branch being
unreachable.  In the code the source process is spawned with only its
stdout piped, so its stderr handle is always absent and the unwrap in the
non-interactive branch aborts unconditionally; only the interactive branch
(diagnostic stream left unread) behaves as specified. -/
theorem c1_noninteractive_drain_aborts (v f : Int) (d : List Char) :
    exec false v f d = .error "stderr take unwrap on None" ∧
    exec true v f d = .ok (f, []) :=
  ⟨rfl, rfl⟩

/-- Claim C2 (confirmed): the pipeline's reported outcome is exactly the
transcoder's exit status — the source process's status never affects the
result of `exec` or `render_video` — and a non-zero transcoder status makes
`render_video` terminate the whole run with the distinguished non-zero
failure code `exitcode::SOFTWARE`. -/
theorem c2_outcome_is_transcoder_status (env : BuildEnv) (output video script : RPath)
    (s : Config) (flag b : Bool) (v vAlt f : Int) (d : List Char) :
    exec true v f d = .ok (f, []) ∧
    render_video env b output s video script flag v f d =
      render_video env b output s video script flag vAlt f d ∧
    (f ≠ 0 → (build_ffmpeg_command env script video output s flag).isOk = true →
      render_video env true output s video script flag v f d = .exitRun exitcodeSOFTWARE) ∧
    exitcodeSOFTWARE ≠ 0 := by
  refine ⟨rfl, rfl, ?_, by decide⟩
  intro hf hok
  cases hb : build_ffmpeg_command env script video output s flag with
  | error e => rw [hb] at hok; simp [Except.isOk, Except.toBool] at hok
  | ok cmd => simp [render_video, hb, exec, vspipeSpawnHandles, hf]

/-- Witness for C2 at a concrete render: transcoder status 3 terminates the
run with the failure code. -/
theorem c2_witness :
    render_video envPlain true ["out.mp4"] cfgBase ["v.mp4"] ["t", "s.vpy"] false 0 3 [] =
      .exitRun exitcodeSOFTWARE :=
  (c2_outcome_is_transcoder_status envPlain ["out.mp4"] ["v.mp4"] ["t", "s.vpy"] cfgBase
    false true 0 0 3 []).2.2.1 (by decide) (by decide)

/-- Claim C4 counterexample, two failure modes of "updated unconditionally
for every matching record, without error": the record
`Frame: 18446744073709551616/1` matches the frame pattern yet the scan
aborts in `parse::<u64>().unwrap()` on overflow; and the record
`Frame: ٣/4` (ARABIC-INDIC DIGIT THREE U+0663, a `\d`-matched Unicode
decimal digit) also matches, yet aborts because `parse::<u64>` accepts
only ASCII digits — at the tiny value three. -/
theorem c4_counterexample :
    matchFrame ("Frame: 18446744073709551616/1\r".toList) =
      some ("18446744073709551616".toList, ['1']) ∧
    progress ("Frame: 18446744073709551616/1\r".toList) = .error "u64 parse unwrap" ∧
    matchFrame ("Frame: \u0663/4\r".toList) = some (['\u0663'], ['4']) ∧
    progress ("Frame: \u0663/4\r".toList) = .error "u64 parse unwrap" :=
  ⟨rfl, rfl, rfl, rfl⟩

/-- Claim C4 (amended, confirmed): splitting is on the carriage-return
delimiter; provided every matched capture is u64-parseable (a non-empty
ASCII-digit run with value below 2^64 — `\d` itself matches any Unicode
decimal digit), the total is recorded exactly once, from the first
matching record and before any position update, the position is updated
for every matching record, non-matching records contribute nothing and
raise no error, and the scan ends without error at end of stream; a
matching record with an unparseable capture aborts the scan instead. -/
theorem c4_progress_extractor (input : List Char)
    (hbound : ∀ p ∈ matchedOf (splitCR input), (parseU64 p.1).isSome = true ∧
      (parseU64 p.2).isSome = true) :
    (splitCR input).flatten = input ∧
    progress input =
      .ok (match matchedOf (splitCR input) with
        | [] => []
        | (c, t) :: rest =>
          PbEvent.setLength ((parseU64 t).getD 0) ::
            PbEvent.setPosition ((parseU64 c).getD 0) ::
            rest.map fun p => PbEvent.setPosition ((parseU64 p.1).getD 0)) :=
  ⟨splitCR_flatten input, progressRun_false (splitCR input) hbound⟩

/-- Witness for the amended C4 on a concrete stream with noise records and
two frame records. -/
theorem c4_witness :
    progress ("noise\rFrame: 10/20\rjunk\rFrame: 11/21\r".toList) =
      .ok [PbEvent.setLength 20, PbEvent.setPosition 10, PbEvent.setPosition 11] :=
  (c4_progress_extractor ("noise\rFrame: 10/20\rjunk\rFrame: 11/21\r".toList) (by decide)).2

/-- Claim C3 counterexample: both paths have usable file-name components,
yet the builder fails — with a propagated installer-detection I/O error,
not a malformed-path error — so the builder's failures are not confined to
malformed video/output paths. -/
theorem c3_counterexample :
    (fileName ["v.mp4"]).isSome = true ∧ (fileName ["out.mp4"]).isSome = true ∧
    build_ffmpeg_command envBadInstaller ["s.vpy"] ["v.mp4"] ["out.mp4"] cfgBase false =
      .error (.io .installerDetect) :=
  ⟨rfl, rfl, rfl⟩

/-- Claim C3 (amended, confirmed): the builder is total whenever the
out-of-scope executable resolution succeeds and, when the detailed-filename
rewrite applies, the output path has a file stem; every error it returns
stems from installer detection or the running binary's path, and the only
path-related failure is the file-stem unwrap abort of the
detailed-filename branch (no malformed-path error value exists). -/
theorem c3_build_totality (env : BuildEnv) (script video output : RPath) (s : Config)
    (flag : Bool) :
    (envReady env →
      (dcond s = true → (fileStem output).isSome = true) →
      (build_ffmpeg_command env script video output s flag).isOk = true) ∧
    (∀ k, build_ffmpeg_command env script video output s flag = .error (.io k) →
      env.used_installer = .error k ∨ env.current_exe = .error k) ∧
    (∀ m, build_ffmpeg_command env script video output s flag = .error (.panicked m) →
      (dcond s = true ∧ fileStem output = none) ∨ env.current_exe = .ok []) := by
  refine ⟨?_, ?_, ?_⟩
  · intro hready hstem
    obtain ⟨⟨ve, fe⟩, hres⟩ := resolveExes_ok_of_ready hready
    unfold build_ffmpeg_command
    rw [hres]
    dsimp only
    by_cases hd : dcond s = true
    · rw [if_pos hd]
      cases hfs : fileStem output with
      | none =>
        have hx := hstem hd
        rw [hfs] at hx
        simp at hx
      | some stem => rfl
    · rw [if_neg hd]
      cases flag with
      | true => rw [if_pos rfl]; rfl
      | false => rw [if_neg (by simp)]; rfl
  · intro k hk
    rcases build_error_cases hk with hre | ⟨habs, _, _⟩
    · rcases resolveExes_error_cases hre with ⟨k2, hk2, hsrc⟩ | ⟨habs, _⟩
      · injection hk2 with h2
        rw [h2]
        exact hsrc
      · exact BuildErr.noConfusion habs
    · exact BuildErr.noConfusion habs
  · intro m hm
    rcases build_error_cases hm with hre | ⟨_, hd, hfs⟩
    · rcases resolveExes_error_cases hre with ⟨k2, hk2, _⟩ | ⟨_, hce⟩
      · exact BuildErr.noConfusion hk2
      · exact Or.inr hce
    · exact Or.inl ⟨hd, hfs⟩

/-- Witness for the amended C3: a ready environment and an output path
with a file stem yield a successful build. -/
theorem c3_witness :
    (build_ffmpeg_command envPlain ["t", "s.vpy"] ["v.mp4"] ["out.mp4"] cfgBase
      false).isOk = true :=
  (c3_build_totality envPlain ["t", "s.vpy"] ["v.mp4"] ["out.mp4"] cfgBase false).1
    (Or.inl rfl) (fun hd => by rfl)

/-- Claim C5 (confirmed): the audio filter chain holds the input resample
filter at 48000*(1/inputScale) exactly when the input scale differs from 1,
additionally (comma-joined) a 48000*outputScale resample filter or an
atempo=outputScale filter (by the pitch-adjustment switch) exactly when the
output scale differs from 1; and the `-af` flag appears in the transcoder
arguments exactly when the chain is non-empty — in particular not at unit
scales.  (The hypotheses only rule out the quality value, the input path
or the output name coinciding with the literal string "-af".) -/
theorem c5_audio_filters (env : BuildEnv) (script video output : RPath) (s : Config)
    (flag : Bool) (cmd : CommandWithArgs)
    (hb : build_ffmpeg_command env script video output s flag = .ok cmd)
    (hq : s.encoding.quality ≠ "-af") (hv : displayPath video ≠ "-af")
    (ho : cmd.output_filename ≠ "-af") :
    (s.timescale.input ≠ 1 → s.timescale.output = 1 →
      audioFilters s = "asetrate=48000*" ++ fmtQ (1 / s.timescale.input)) ∧
    (s.timescale.input = 1 → s.timescale.output ≠ 1 →
      audioFilters s =
        (if s.timescale.adjust_audio_pitch then "asetrate=48000*" ++ fmtQ s.timescale.output
         else "atempo=" ++ fmtQ s.timescale.output)) ∧
    (s.timescale.input ≠ 1 → s.timescale.output ≠ 1 →
      audioFilters s = "asetrate=48000*" ++ fmtQ (1 / s.timescale.input) ++ "," ++
        (if s.timescale.adjust_audio_pitch then "asetrate=48000*" ++ fmtQ s.timescale.output
         else "atempo=" ++ fmtQ s.timescale.output)) ∧
    ("-af" ∈ cmd.ffmpeg_args ↔ ¬ audioFilters s = "") ∧
    (s.timescale.input = 1 → s.timescale.output = 1 → "-af" ∉ cmd.ffmpeg_args) := by
  obtain ⟨hvs, tail, hargs, htail⟩ := build_ok_decomp hb
  have hiff : ("-af" ∈ cmd.ffmpeg_args ↔ ¬ audioFilters s = "") := by
    constructor
    · intro hmem hemp
      have haf : afArgs s = [] := by simp [afArgs, hemp]
      rw [hargs, haf] at hmem
      rcases List.mem_append.mp hmem with h12 | htl
      rcases List.mem_append.mp h12 with h1 | henc
      · rw [List.append_nil] at h1
        simp only [baseArgs, List.mem_cons, List.not_mem_nil, or_false] at h1
        rcases h1 with h|h|h|h|h|h|h|h|h|h|h|h <;>
          first
            | exact absurd h (by decide)
            | exact hv h.symm
      · unfold encoderSection at henc
        split at henc
        · simp at henc
        · rcases mem_encoderArgs henc with h2 | h2
          · exact hq h2.symm
          · exact absurd h2 (by decide)
      · rcases htail with ⟨rfl, hout⟩ | rfl
        · simp at htl
        · simp at htl
          exact ho htl.symm
    · intro hne
      have haf : afArgs s = ["-af", audioFilters s] := by simp [afArgs, hne]
      rw [hargs, haf]
      simp
  exact ⟨fun hi ho2 => audioFilters_inOnly hi ho2,
    fun hi ho2 => audioFilters_outOnly hi ho2,
    fun hi ho2 => audioFilters_both hi ho2,
    hiff,
    fun hi ho2 hm => (hiff.mp hm) (audioFilters_none hi ho2)⟩

/-- Witness for C5: input scale 1/2 and output scale 2 without pitch
adjustment put `-af` with chain `asetrate=48000*2,atempo=2` into the
arguments. -/
theorem c5_witness :
    build_ffmpeg_command envPlain ["t", "s.vpy"] ["v.mp4"] ["out.mp4"] cfg5 false =
      .ok cmd5 ∧ "-af" ∈ cmd5.ffmpeg_args := by
  have hb : build_ffmpeg_command envPlain ["t", "s.vpy"] ["v.mp4"] ["out.mp4"] cfg5 false =
      .ok cmd5 := by rfl
  exact ⟨hb, ((c5_audio_filters envPlain ["t", "s.vpy"] ["v.mp4"] ["out.mp4"] cfg5 false
    cmd5 hb (by decide) (by decide) (by decide)).2.2.2.1).mpr (by decide)⟩

/-- Claim C6 (confirmed): output-target resolution is total and exclusive —
the branch indicator takes exactly one of the three values, the
detailed-filename condition forces the rewrite branch, otherwise the
stdout flag forces the streaming form (`-f nut`, output `-`), otherwise the
plain resolved path is used — and each branch fixes the produced command's
output name and argument tail accordingly. -/
theorem c6_output_resolution (env : BuildEnv) (script video output : RPath) (s : Config)
    (flag : Bool) (cmd : CommandWithArgs)
    (hb : build_ffmpeg_command env script video output s flag = .ok cmd) :
    (outputBranch s flag = 0 ∨ outputBranch s flag = 1 ∨ outputBranch s flag = 2) ∧
    (dcond s = true → outputBranch s flag = 0) ∧
    (dcond s = false → flag = true → outputBranch s flag = 1) ∧
    (dcond s = false → flag = false → outputBranch s flag = 2) ∧
    (outputBranch s flag = 0 → ∃ stem, fileStem output = some stem ∧
      cmd.output_filename = displayPath (change_file_name output (detailedFileName s stem)) ∧
      cmd.ffmpeg_args =
        baseArgs video ++ afArgs s ++ encoderSection s flag ++ [cmd.output_filename]) ∧
    (outputBranch s flag = 1 → cmd.output_filename = "-" ∧
      cmd.ffmpeg_args =
        baseArgs video ++ afArgs s ++ encoderSection s flag ++ ["-f", "nut", "-"]) ∧
    (outputBranch s flag = 2 → cmd.output_filename = displayPath output ∧
      cmd.ffmpeg_args =
        baseArgs video ++ afArgs s ++ encoderSection s flag ++ [cmd.output_filename]) := by
  have hall : ∀ x : Fin 3, x = 0 ∨ x = 1 ∨ x = 2 := by decide
  unfold build_ffmpeg_command at hb
  cases hre : resolveExes env with
  | error e => rw [hre] at hb; exact Except.noConfusion hb
  | ok p =>
    obtain ⟨ve, fe⟩ := p
    rw [hre] at hb
    dsimp only at hb
    by_cases hd : dcond s = true
    · rw [if_pos hd] at hb
      cases hfs : fileStem output with
      | none => rw [hfs] at hb; exact Except.noConfusion hb
      | some stem =>
        rw [hfs] at hb
        cases hb
        refine ⟨hall _, fun _ => by simp [outputBranch, hd],
          fun hd2 _ => absurd hd (by simp [hd2]),
          fun hd2 _ => absurd hd (by simp [hd2]),
          fun _ => ⟨stem, rfl, rfl, by simp [List.append_assoc]⟩,
          fun h1 => absurd h1 (by simp [outputBranch, hd]),
          fun h2 => absurd h2 (by simp [outputBranch, hd])⟩
    · have hdf : dcond s = false := by revert hd; cases dcond s <;> simp
      rw [if_neg hd] at hb
      cases flag with
      | true =>
        rw [if_pos rfl] at hb
        cases hb
        refine ⟨hall _, fun hd2 => absurd hd2 hd,
          fun _ _ => by simp [outputBranch, hdf],
          fun _ hff => Bool.noConfusion hff,
          fun h0 => absurd h0 (by simp [outputBranch, hdf]),
          fun _ => ⟨rfl, by simp [List.append_assoc]⟩,
          fun h2 => absurd h2 (by simp [outputBranch, hdf])⟩
      | false =>
        rw [if_neg (by simp)] at hb
        cases hb
        refine ⟨hall _, fun hd2 => absurd hd2 hd,
          fun _ hff => Bool.noConfusion hff,
          fun _ _ => by simp [outputBranch, hdf],
          fun h0 => absurd h0 (by simp [outputBranch, hdf]),
          fun h1 => absurd h1 (by simp [outputBranch, hdf]),
          fun _ => ⟨rfl, by simp [List.append_assoc]⟩⟩

/-- Witness for C6: with the detailed-filename condition false and the
stdout flag set, the streaming branch is taken and the output name is the
stream sentinel. -/
theorem c6_witness :
    ∃ cmd, build_ffmpeg_command envPlain ["t", "s.vpy"] ["v.mp4"] ["out.mp4"] cfgBase true =
      .ok cmd ∧ cmd.output_filename = "-" := by
  cases hb : build_ffmpeg_command envPlain ["t", "s.vpy"] ["v.mp4"] ["out.mp4"] cfgBase true with
  | error e =>
    have hOk : (build_ffmpeg_command envPlain ["t", "s.vpy"] ["v.mp4"] ["out.mp4"] cfgBase
        true).isOk = true := by decide
    rw [hb] at hOk
    exact Bool.noConfusion hOk
  | ok cmd =>
    have h := (c6_output_resolution envPlain ["t", "s.vpy"] ["v.mp4"] ["out.mp4"] cfgBase
      true cmd hb).2.2.2.2.2.1 (by decide)
    exact ⟨cmd, rfl, h.1⟩

/-- Claim C7 (confirmed): when the script file's parent directory holds at
most one direct entry, `clean` removes that directory recursively (which,
like `remove_dir_all(...).unwrap()`, presumes the removed entries are
deletable — a locked one aborts); otherwise it removes only the script
file.  In both cases it then attempts to delete the
`<video file name>.ffindex` sidecar next to the source video: the result is
successful whether or not the sidecar exists (absence is not an error),
while a deletion failure for any other reason (a locked sidecar) aborts
the process. -/
theorem c7_clean (fs : FS) (video script : RPath) (ffpath : RPath)
    (hffp : ffpath = video.dropLast ++ [((video.getLast?).getD "") ++ ".ffindex"])
    (hs : script ≠ []) (hdir : dirExists fs script.dropLast = true) (hv : video ≠ []) :
    (dirCount fs script.dropLast ≤ 1 →
      (∀ e ∈ fs.entries, script.dropLast.isPrefixOf e → e ∉ fs.locked) →
      ffpath ∉ fs.locked →
      clean fs video script =
        .ok { entries := (fs.entries.filter
                (fun e => ¬ (script.dropLast.isPrefixOf e))).filter
                (fun e => decide (e ≠ ffpath)),
              locked := fs.locked }) ∧
    (1 < dirCount fs script.dropLast → script ∈ fs.entries → script ∉ fs.locked →
      ffpath ∉ fs.locked →
      clean fs video script =
        .ok { entries := (fs.entries.filter (fun e => decide (e ≠ script))).filter
                (fun e => decide (e ≠ ffpath)),
              locked := fs.locked }) ∧
    (dirCount fs script.dropLast ≤ 1 →
      (∀ e ∈ fs.entries, script.dropLast.isPrefixOf e → e ∉ fs.locked) →
      ffpath ∈ fs.locked →
      clean fs video script = .error "Problem deleting the file") ∧
    (dirCount fs script.dropLast ≤ 1 →
      (∃ e ∈ fs.entries, script.dropLast.isPrefixOf e ∧ e ∈ fs.locked) →
      clean fs video script = .error "remove_dir_all unwrap") := by
  subst hffp
  cases script with
  | nil => exact absurd rfl hs
  | cons a rest =>
    cases video with
    | nil => exact absurd rfl hv
    | cons b brest =>
      have hcond : ¬ (¬ dirExists fs ((a :: rest).dropLast) = true) := by simp [hdir]
      have hanyOf : ∀ hpl : (∀ e ∈ fs.entries, (a :: rest).dropLast.isPrefixOf e →
          e ∉ fs.locked),
          removeDirAllFS fs ((a :: rest).dropLast) =
            .ok { fs with
                  entries := fs.entries.filter (fun e => ¬ ((a :: rest).dropLast.isPrefixOf e)) } := by
        intro hpl
        unfold removeDirAllFS
        rw [if_neg ?_]
        simp only [List.any_eq_true, Bool.and_eq_true, decide_eq_true_eq, not_exists]
        rintro e ⟨he, hpre, hlk⟩
        exact hpl e he hpre hlk
      refine ⟨fun h1 hpl hnl => ?_, fun h2 hmem hsl hnl => ?_,
        fun h1 hpl hl => ?_, fun h1 hex => ?_⟩
      · unfold clean
        rw [if_neg hcond, if_pos h1, hanyOf hpl]
        dsimp only
        rw [ffindexStep_eq
          { fs with
            entries := fs.entries.filter (fun e => ¬ ((a :: rest).dropLast.isPrefixOf e)) } _ hnl]
      · unfold clean
        rw [if_neg hcond, if_neg (Nat.not_le.mpr h2)]
        have hrf : removeFileFS fs (a :: rest) =
            .ok { fs with entries := fs.entries.filter (fun e => decide (e ≠ a :: rest)) } := by
          unfold removeFileFS
          rw [if_neg hsl, if_pos hmem]
        rw [hrf]
        dsimp only
        rw [ffindexStep_eq
          { fs with entries := fs.entries.filter (fun e => decide (e ≠ a :: rest)) } _ hnl]
      · unfold clean
        rw [if_neg hcond, if_pos h1, hanyOf hpl]
        dsimp only
        have hrf : removeFileFS
            { fs with
              entries := fs.entries.filter (fun e => ¬ ((a :: rest).dropLast.isPrefixOf e)) }
            ((b :: brest).dropLast ++ [(b :: brest).getLast?.getD "" ++ ".ffindex"]) =
            .error .permission := by
          unfold removeFileFS
          rw [if_pos (show ((b :: brest).dropLast ++
            [(b :: brest).getLast?.getD "" ++ ".ffindex"]) ∈
            ({ fs with
               entries := fs.entries.filter (fun e => ¬ ((a :: rest).dropLast.isPrefixOf e)) } :
              FS).locked from hl)]
        rw [hrf]
      · unfold clean
        rw [if_neg hcond, if_pos h1]
        have hrd : removeDirAllFS fs ((a :: rest).dropLast) = .error .permission := by
          unfold removeDirAllFS
          rw [if_pos ?_]
          simp only [List.any_eq_true, Bool.and_eq_true, decide_eq_true_eq]
          obtain ⟨e, he, hpre, hlk⟩ := hex
          exact ⟨e, he, hpre, hlk⟩
        rw [hrd]

/-- Witness for C7: a temp directory holding only the script is removed
whole (with a missing sidecar raising no error); one holding another file
loses only the script (with the present sidecar removed); and one holding
the script plus a subdirectory — two direct entries for `read_dir` — also
loses only the script, keeping the subdirectory's contents. -/
theorem c7_witness :
    clean { entries := [["t", "s.vpy"]], locked := [] } ["v.mp4"] ["t", "s.vpy"] =
      .ok { entries := [], locked := [] } ∧
    clean { entries := [["t", "s.vpy"], ["t", "o.tmp"], ["v.mp4.ffindex"]], locked := [] }
        ["v.mp4"] ["t", "s.vpy"] =
      .ok { entries := [["t", "o.tmp"]], locked := [] } ∧
    clean { entries := [["t", "s.vpy"], ["t", "sub", "x"]], locked := [] }
        ["v.mp4"] ["t", "s.vpy"] =
      .ok { entries := [["t", "sub", "x"]], locked := [] } := by
  refine ⟨?_, ?_, ?_⟩
  · have h := (c7_clean { entries := [["t", "s.vpy"]], locked := [] } ["v.mp4"]
      ["t", "s.vpy"] ["v.mp4.ffindex"] (by decide) (by decide) (by decide) (by decide)).1
      (by decide) (by decide) (by decide)
    exact h.trans (by rfl)
  · have h := (c7_clean
      { entries := [["t", "s.vpy"], ["t", "o.tmp"], ["v.mp4.ffindex"]], locked := [] }
      ["v.mp4"] ["t", "s.vpy"] ["v.mp4.ffindex"]
      (by decide) (by decide) (by decide) (by decide)).2.1
      (by decide) (by decide) (by decide) (by decide)
    exact h.trans (by rfl)
  · have h := (c7_clean
      { entries := [["t", "s.vpy"], ["t", "sub", "x"]], locked := [] }
      ["v.mp4"] ["t", "s.vpy"] ["v.mp4.ffindex"]
      (by decide) (by decide) (by decide) (by decide)).2.1
      (by decide) (by decide) (by decide) (by decide)
    exact h.trans (by rfl)

/-- Claim C8 counterexample: with detailed-filename reporting,
interpolation and blending enabled and blending amount displayed as "0.6",
the resolved name for output `video.mp4` is `video-5fps-svp~60fps-0.mp4`:
`set_extension` treats the "6" after the last dot of the embedded
parameters as an extension and replaces it, so the blending amount is not
embedded intact even though an `.mp4` extension survives. -/
theorem c8_counterexample :
    (build_ffmpeg_command envPlain ["t", "s.vpy"] ["v.mp4"] ["video.mp4"] cfg8 false).map
        (fun c => c.output_filename) = .ok "video-5fps-svp~60fps-0.mp4" ∧
    detailedFileName cfg8 (stemOf "video.mp4") ++ "." ++ "mp4" =
      "video-5fps-svp~60fps-0.6.mp4" ∧
    "video-5fps-svp~60fps-0.mp4" ≠ "video-5fps-svp~60fps-0.6.mp4" :=
  ⟨rfl, rfl, by decide⟩

/-- Claim C8 (amended, confirmed): when detailed-filename reporting,
interpolation and blending are all enabled, the output path has a
non-empty extension, and the rewritten base name (stem plus embedded
interpolation fps, interpolation program, blending fps and blending
amount) contains no dot, the resolved output file name is exactly that
rewritten base name with the original extension appended. -/
theorem c8_detailed_filename (env : BuildEnv) (script video output : RPath) (s : Config)
    (flag : Bool) (cmd : CommandWithArgs) (n ext : String)
    (hd : dcond s = true)
    (hb : build_ffmpeg_command env script video output s flag = .ok cmd)
    (hn : fileName output = some n) (hx : extOf n = some ext) (hxe : ext ≠ "")
    (hdot : '.' ∉ (detailedFileName s (stemOf n)).toList) :
    cmd.output_filename =
      displayPath (output.dropLast ++ [detailedFileName s (stemOf n) ++ "." ++ ext]) := by
  unfold build_ffmpeg_command at hb
  cases hre : resolveExes env with
  | error e => rw [hre] at hb; exact Except.noConfusion hb
  | ok p =>
    obtain ⟨ve, fe⟩ := p
    rw [hre] at hb
    dsimp only at hb
    rw [if_pos hd] at hb
    have hgl : output.getLast? = some n := hn
    have hfs : fileStem output = some (stemOf n) := by
      simp [fileStem, hgl]
    rw [hfs] at hb
    cases hb
    show displayPath (change_file_name output (detailedFileName s (stemOf n))) = _
    congr 1
    unfold change_file_name
    rw [show fileName output = some n from hgl]
    dsimp only
    rw [hx]
    dsimp only
    unfold setExtension setFileName
    rw [List.getLast?_concat, List.dropLast_concat]
    dsimp only
    rw [if_neg hxe, stemOf_no_dot hdot]

/-- Witness for the amended C8: a dot-free blending amount yields the full
embedded name with the original extension preserved. -/
theorem c8_witness :
    ∃ cmd, build_ffmpeg_command envPlain ["t", "s.vpy"] ["v.mp4"] ["video.mp4"] cfg8ok
        false = .ok cmd ∧ cmd.output_filename = "video-5fps-svp~60fps-06.mp4" := by
  cases hb : build_ffmpeg_command envPlain ["t", "s.vpy"] ["v.mp4"] ["video.mp4"] cfg8ok
      false with
  | error e =>
    have hOk : (build_ffmpeg_command envPlain ["t", "s.vpy"] ["v.mp4"] ["video.mp4"] cfg8ok
        false).isOk = true := by rfl
    rw [hb] at hOk
    exact Bool.noConfusion hOk
  | ok cmd =>
    have h := c8_detailed_filename envPlain ["t", "s.vpy"] ["v.mp4"] ["video.mp4"] cfg8ok
      false cmd "video.mp4" "mp4" (by decide) hb (by rfl) (by rfl) (by decide) (by decide)
    exact ⟨cmd, rfl, h.trans (by rfl)⟩

/-- Claim C9 (confirmed): with a custom-filter override present, the
transcoder argument vector is just the fixed decode options, the audio
filter section and the output target — no encoder section — and in
particular the video-encoder flag `-c:v` of the GPU/software branches does
not occur (given that neither the input path's display form nor the output
name happens to equal that literal). -/
theorem c9_custom_skips_encoders (env : BuildEnv) (script video output : RPath)
    (s : Config) (flag : Bool) (f : String) (cmd : CommandWithArgs)
    (hc : s.advanced.encoding.custom_ffmpeg_filters = some f)
    (hb : build_ffmpeg_command env script video output s flag = .ok cmd)
    (hv : displayPath video ≠ "-c:v") (ho : cmd.output_filename ≠ "-c:v") :
    (∃ tail, cmd.ffmpeg_args = baseArgs video ++ afArgs s ++ tail ∧
      (tail = ["-f", "nut", "-"] ∨ tail = [cmd.output_filename])) ∧
    "-c:v" ∉ cmd.ffmpeg_args := by
  obtain ⟨hvs, tail, hargs, htail⟩ := build_ok_decomp hb
  have hes : encoderSection s flag = [] := by simp [encoderSection, hc]
  rw [hes] at hargs
  constructor
  · refine ⟨tail, by simpa using hargs, ?_⟩
    rcases htail with ⟨h1, _⟩ | h2
    · exact Or.inl h1
    · exact Or.inr h2
  · intro hmem
    rw [hargs] at hmem
    rcases List.mem_append.mp hmem with h12 | htl
    · rcases List.mem_append.mp h12 with h1 | h0
      · rcases List.mem_append.mp h1 with hb1 | ha1
        · simp only [baseArgs, List.mem_cons, List.not_mem_nil, or_false] at hb1
          rcases hb1 with h|h|h|h|h|h|h|h|h|h|h|h <;>
            first
              | exact absurd h (by decide)
              | exact hv h.symm
        · by_cases hemp : audioFilters s = ""
          · rw [afArgs, if_pos hemp] at ha1
            simp at ha1
          · rw [afArgs, if_neg hemp] at ha1
            simp only [List.mem_cons, List.not_mem_nil, or_false] at ha1
            rcases ha1 with h2 | h2
            · exact absurd h2 (by decide)
            · rcases audioFilters_head hemp with ⟨t, ht⟩ | ⟨t, ht⟩
              · have h3 : (audioFilters s).data.take 2 = ['a', 's'] := by rw [ht]; rfl
                rw [← h2] at h3
                exact absurd h3 (by decide)
              · have h3 : (audioFilters s).data.take 2 = ['a', 't'] := by rw [ht]; rfl
                rw [← h2] at h3
                exact absurd h3 (by decide)
      · simp at h0
    · rcases htail with ⟨rfl, _⟩ | rfl
      · exact absurd htl (by decide)
      · simp at htl
        exact ho htl.symm

/-- Witness for C9: GPU encoding nominally requested but a custom override
present; `-c:v` is absent from the produced arguments. -/
theorem c9_witness :
    build_ffmpeg_command envPlain ["t", "s.vpy"] ["v.mp4"] ["out.mp4"] cfg9 false =
      .ok cmd9 ∧ "-c:v" ∉ cmd9.ffmpeg_args := by
  have hb : build_ffmpeg_command envPlain ["t", "s.vpy"] ["v.mp4"] ["out.mp4"] cfg9 false =
      .ok cmd9 := by rfl
  exact ⟨hb, (c9_custom_skips_encoders envPlain ["t", "s.vpy"] ["v.mp4"] ["out.mp4"] cfg9
    false "myfilters" cmd9 (by rfl) hb (by decide) (by decide)).2⟩

/-- Every element of a custom-override build's transcoder arguments is a
fixed decode option, the input path, an audio-filter element, a streaming
flag, or the output name — nothing derived from the override. -/
theorem custom_args_mem {env : BuildEnv} {script video output : RPath} {s : Config}
    {flag : Bool} {f : String} {cmd : CommandWithArgs} {x : String}
    (hc : s.advanced.encoding.custom_ffmpeg_filters = some f)
    (hb : build_ffmpeg_command env script video output s flag = .ok cmd)
    (hmem : x ∈ cmd.ffmpeg_args) :
    x ∈ baseArgs video ∨ x ∈ afArgs s ∨ x ∈ ["-f", "nut", "-"] ∨
      x = cmd.output_filename := by
  obtain ⟨hvs, tail, hargs, htail⟩ := build_ok_decomp hb
  have hes : encoderSection s flag = [] := by simp [encoderSection, hc]
  rw [hes] at hargs
  rw [hargs] at hmem
  rcases List.mem_append.mp hmem with h12 | htl
  · rcases List.mem_append.mp h12 with h1 | h0
    · rcases List.mem_append.mp h1 with hb1 | ha1
      · exact Or.inl hb1
      · exact Or.inr (Or.inl ha1)
    · simp at h0
  · rcases htail with ⟨rfl, _⟩ | rfl
    · exact Or.inr (Or.inr (Or.inl htl))
    · simp at htl
      exact Or.inr (Or.inr (Or.inr htl))

/-- No element of the audio-codec/fast-start section equals the audio
filter chain (their first two characters differ). -/
theorem aacSection_ne_audioFilters {s : Config} {y : String} (hy : y ∈ aacSection) :
    y ≠ audioFilters s := by
  intro heq
  simp only [aacSection, List.mem_cons, List.not_mem_nil, or_false] at hy
  rcases hy with rfl | rfl | rfl | rfl | rfl | rfl <;>
  · have hne : audioFilters s ≠ "" := by
      intro h0
      rw [h0] at heq
      exact absurd heq (by decide)
    rcases audioFilters_head hne with ⟨t, ht⟩ | ⟨t, ht⟩
    · have h3 : (audioFilters s).data.take 2 = ['a', 's'] := by rw [ht]; rfl
      rw [← heq] at h3
      exact absurd h3 (by decide)
    · have h3 : (audioFilters s).data.take 2 = ['a', 't'] := by rw [ht]; rfl
      rw [← heq] at h3
      exact absurd h3 (by decide)

/-- Claim C10 (confirmed): a present custom-filter override contributes
nothing to either argument vector — the produced command is invariant
under replacing the override's value, the transcoder arguments reduce to
decode options, audio filters and output target, the audio-codec flags
(`-c:a aac -b:a 320k`) and fast-start flag are absent (barring the input
path or output name coinciding with those literals), and the override
string itself appears in neither vector unless it coincides with one of
the always-present elements. -/
theorem c10_custom_contributes_nothing (env : BuildEnv) (script video output : RPath)
    (s : Config) (flag : Bool) (f g : String) (cmd : CommandWithArgs)
    (hc : s.advanced.encoding.custom_ffmpeg_filters = some f)
    (hb : build_ffmpeg_command env script video output s flag = .ok cmd) :
    build_ffmpeg_command env script video output (withCustom s (some g)) flag = .ok cmd ∧
    (∃ tail, cmd.ffmpeg_args = baseArgs video ++ afArgs s ++ tail ∧
      (tail = ["-f", "nut", "-"] ∨ tail = [cmd.output_filename])) ∧
    (∀ x ∈ aacSection, displayPath video ≠ x → cmd.output_filename ≠ x →
      x ∉ cmd.ffmpeg_args) ∧
    (f ∉ [displayPath script, "-", "-p", "-c", "y4m"] → f ∉ cmd.vspipe_args) ∧
    (f ∉ baseArgs video → f ∉ afArgs s → f ∉ ["-f", "nut", "-"] →
      f ≠ cmd.output_filename → f ∉ cmd.ffmpeg_args) := by
  obtain ⟨hvs, tail, hargs, htail⟩ := build_ok_decomp hb
  have hes : encoderSection s flag = [] := by simp [encoderSection, hc]
  have hself : withCustom s (some f) = s := by
    obtain ⟨ts, enc, ⟨⟨gpu, gt, cf⟩, aint⟩, int, bl⟩ := s
    simp only [withCustom]
    simp at hc
    rw [hc]
  refine ⟨?_, ?_, ?_, ?_, ?_⟩
  · calc build_ffmpeg_command env script video output (withCustom s (some g)) flag
        = build_ffmpeg_command env script video output (withCustom s (some f)) flag := by
          unfold build_ffmpeg_command
          cases hre : resolveExes env with
          | error e => rfl
          | ok p => rfl
      _ = .ok cmd := by rw [hself, hb]
  · rw [hes] at hargs
    refine ⟨tail, by simpa using hargs, ?_⟩
    rcases htail with ⟨h1, _⟩ | h2
    · exact Or.inl h1
    · exact Or.inr h2
  · intro x hxa hvideoNe outNe hmem
    rcases custom_args_mem hc hb hmem with hb1 | ha1 | ht1 | ho1
    · simp only [baseArgs, List.mem_cons, List.not_mem_nil, or_false] at hb1
      rcases hb1 with rfl|rfl|rfl|rfl|rfl|rfl|rfl|rfl|rfl|rfl|rfl|rfl <;>
        first
          | exact absurd hxa (by decide)
          | exact absurd rfl hvideoNe
    · by_cases hemp : audioFilters s = ""
      · rw [afArgs, if_pos hemp] at ha1
        simp at ha1
      · rw [afArgs, if_neg hemp] at ha1
        simp only [List.mem_cons, List.not_mem_nil, or_false] at ha1
        rcases ha1 with rfl | rfl
        · exact absurd hxa (by decide)
        · exact aacSection_ne_audioFilters hxa rfl
    · simp only [List.mem_cons, List.not_mem_nil, or_false] at ht1
      rcases ht1 with rfl | rfl | rfl <;> exact absurd hxa (by decide)
    · exact outNe ho1.symm
  · intro hf1 hmemv
    rw [hvs] at hmemv
    exact hf1 hmemv
  · intro h1 h2 h3 h4 hmem
    rcases custom_args_mem hc hb hmem with a | b | c | d
    · exact h1 a
    · exact h2 b
    · exact h3 c
    · exact h4 d

/-- Witness for C10: replacing the override value leaves the command
unchanged, the override string is absent, and so are the audio-codec
flags. -/
theorem c10_witness :
    build_ffmpeg_command envPlain ["t", "s.vpy"] ["v.mp4"] ["out.mp4"]
        (withCustom cfg9 (some "other")) false = .ok cmd9 ∧
    "myfilters" ∉ cmd9.ffmpeg_args ∧ "-c:a" ∉ cmd9.ffmpeg_args := by
  have h := c10_custom_contributes_nothing envPlain ["t", "s.vpy"] ["v.mp4"] ["out.mp4"]
    cfg9 false "myfilters" "other" cmd9 (by rfl) (by rfl)
  refine ⟨h.1, ?_, ?_⟩
  · exact h.2.2.2.2 (by decide) (by decide) (by decide) (by decide)
  · exact h.2.2.1 "-c:a" (by decide) (by decide) (by decide)

end Blur
